import Mathlib

/-!
Shallow embedding of the EC schema class/property/relationship metadata model
(`ECClass`, `EntityClass`, `MixinClass`, `CustomAttributeClass`,
`RelationshipClass`, `RelationshipConstraint`) of this repository.

Modelling conventions:
* TypeScript objects become Lean structures; mutating methods become functions
  from the old value to the new one; methods that `throw` return `Except`.
* `undefined` fields become `Option`; JavaScript truthiness of a possibly
  absent JSON field is modelled by `jsTruthy`.
* TypeScript `as` casts are erased at runtime; they are modelled by nothing,
  with comments at the places where the source relies on them.
* Cross references between schema members (base classes, mixins, constraint
  classes) are represented by `SchemaItem`, the identity data (kind and name)
  of the referenced schema child; this breaks the reference cycles of the heap
  while keeping the kind information (Entity vs Relationship vs Mixin) that
  the operations inspect.
* The back-reference from a `RelationshipConstraint` to its owning
  `RelationshipClass` is likewise represented by the identity data the
  constraint actually reads: the class name and the class's owning schema.
-/

/-- A JSON-like runtime value, the shape of the untyped `jsonObj: any`
arguments accepted by the `fromJson` methods. Numbers are modelled as
integers (no claim involves fractional values). -/
inductive Json where
  | null : Json
  | bool (b : Bool) : Json
  | num (n : Int) : Json
  | str (s : String) : Json
  | arr (elems : List Json) : Json
  | obj (fields : List (String × Json)) : Json

/-- Field access `jsonObj.field`: `none` models JavaScript `undefined`,
both for a missing key and for access on a non-object. -/
def Json.get : Json → String → Option Json
  | .obj fields, key => (fields.find? (fun f => f.fst = key)).map (·.snd)
  | _, _ => none

/-- JavaScript truthiness of a possibly absent value: `undefined`, `null`,
`false`, `0` and the empty string are falsy; every other value is truthy. -/
def jsTruthy : Option Json → Bool
  | none => false
  | some .null => false
  | some (.bool b) => b
  | some (.num n) => n != 0
  | some (.str s) => s != ""
  | some (.arr _) => true
  | some (.obj _) => true

/-- Whether a JSON value is a string (`typeof v === "string"`). -/
def Json.isString : Json → Bool
  | .str _ => true
  | _ => false

/-- The underlying string of a JSON string; the coercion is only applied at
places where the source has already established the value is a string. -/
def Json.asString : Json → String
  | .str s => s
  | _ => ""

/-- Whether a JSON value is an array (`Array.isArray(v)`). -/
def Json.isArray : Json → Bool
  | .arr _ => true
  | _ => false

/-- The elements of a JSON array; only applied where the source has already
established the value is an array. -/
def Json.asArray : Json → List Json
  | .arr xs => xs
  | _ => []

/-- The boolean content of a JSON value, used where the source assigns a
truthy JSON value into a boolean-typed field (`polymorphic`); a truthy
non-boolean is coarsened to `true` (no claim exercises that case). -/
def Json.asBool : Json → Bool
  | .bool b => b
  | _ => true

/-- Status codes of the structured `ECObjectsError` (from `Exception.ts`,
which is referenced but not under the provided sources; the codes themselves
are named at each `throw` site of the provided source). -/
inductive ECObjectsStatus where
  | ECOBJECTS_ERROR_BASE
  | DuplicateProperty
  | InvalidECJson
  | InvalidMultiplicity
  | InvalidModifier
  | InvalidStrength
  | InvalidStrengthDirection
  | InvalidPrimitiveType
  | InvalidContainerType
deriving DecidableEq, Repr

/-- The structured error every failure is raised as: a status code plus a
message string. -/
structure ECObjectsError where
  status : ECObjectsStatus
  message : String
deriving DecidableEq, Repr

/-- Modifier of an EC class (`ECClassModifier` from `ECObjects.ts`): spec
section 3 gives the three values None/Abstract/Sealed. -/
inductive ECClassModifier where
  | None
  | Abstract
  | Sealed
deriving DecidableEq, Repr

/-- Strength of a relationship (`StrengthType` from `ECObjects.ts`); the spec
names `Referencing` as the default, the glossary describes ownership/cascade
semantics; `Holding` and `Embedding` complete the conventional triple. -/
inductive StrengthType where
  | Referencing
  | Holding
  | Embedding
deriving DecidableEq, Repr

/-- Direction of a related instance (`RelatedInstanceDirection` from
`ECObjects.ts`); the spec names `Forward` as the default. -/
inductive RelatedInstanceDirection where
  | Forward
  | Backward
deriving DecidableEq, Repr

/-- The end of a relationship a constraint describes (`RelationshipEnd`). -/
inductive RelationshipEnd where
  | Source
  | Target
deriving DecidableEq, Repr

/-- Primitive property types (`PrimitiveType` from `ECObjects.ts`, not under
the provided sources); the exact constructor set does not affect any claim. -/
inductive PrimitiveType where
  | Binary
  | Boolean
  | Double
  | Integer
  | Long
  | Point2d
  | Point3d
  | Text
deriving DecidableEq, Repr

/-- Container types a custom attribute may be applied to
(`CustomAttributeContainerType` from `ECObjects.ts`, not under the provided
sources); the exact constructor set does not affect any claim. -/
inductive CustomAttributeContainerType where
  | Schema
  | EntityClass
  | AnyClass
  | AnyProperty
deriving DecidableEq, Repr

/-- Modelled from the spec: `parseClassModifier` (from `ECObjects.ts`, not
under the provided sources) maps the string form of a modifier to the enum
and fails loudly on an unrecognized value. -/
def parseClassModifier (modifier : String) : Except ECObjectsError ECClassModifier :=
  if modifier = "None" then .ok ECClassModifier.None
  else if modifier = "Abstract" then .ok ECClassModifier.Abstract
  else if modifier = "Sealed" then .ok ECClassModifier.Sealed
  else .error ⟨.InvalidModifier, modifier⟩

/-- Modelled from the spec: `parseStrength` (from `ECObjects.ts`, not under
the provided sources) parses a strength string, failing on unrecognized
values (spec section 4.5). -/
def parseStrength (strength : String) : Except ECObjectsError StrengthType :=
  if strength = "referencing" then .ok StrengthType.Referencing
  else if strength = "holding" then .ok StrengthType.Holding
  else if strength = "embedding" then .ok StrengthType.Embedding
  else .error ⟨.InvalidStrength, strength⟩

/-- Modelled from the spec: `parseStrengthDirection` (from `ECObjects.ts`,
not under the provided sources) resolves a string direction to the enum
(spec section 4.2), failing on unrecognized values. -/
def parseStrengthDirection (direction : String) : Except ECObjectsError RelatedInstanceDirection :=
  if direction = "forward" then .ok RelatedInstanceDirection.Forward
  else if direction = "backward" then .ok RelatedInstanceDirection.Backward
  else .error ⟨.InvalidStrengthDirection, direction⟩

/-- Modelled from the spec: `parsePrimitiveType` (from `ECObjects.ts`, not
under the provided sources) resolves primitive type names via a lookup table
(spec section 4.1); an unrecognized name yields no type. -/
def parsePrimitiveType (type : String) : Option PrimitiveType :=
  if type = "binary" then some PrimitiveType.Binary
  else if type = "boolean" then some PrimitiveType.Boolean
  else if type = "double" then some PrimitiveType.Double
  else if type = "int" then some PrimitiveType.Integer
  else if type = "long" then some PrimitiveType.Long
  else if type = "point2d" then some PrimitiveType.Point2d
  else if type = "point3d" then some PrimitiveType.Point3d
  else if type = "string" then some PrimitiveType.Text
  else none

/-- Modelled from the spec: `parseCustomAttributeContainerType` (from
`ECObjects.ts`, not under the provided sources) parses the `appliesTo`
string of a custom attribute class into the container-type enum via a
dedicated parser that fails on an unrecognized container-type string
(spec section 4.4). -/
def parseCustomAttributeContainerType (containerType : String) : Except ECObjectsError CustomAttributeContainerType :=
  if containerType = "Schema" then .ok CustomAttributeContainerType.Schema
  else if containerType = "EntityClass" then .ok CustomAttributeContainerType.EntityClass
  else if containerType = "AnyClass" then .ok CustomAttributeContainerType.AnyClass
  else if containerType = "AnyProperty" then .ok CustomAttributeContainerType.AnyProperty
  else .error ⟨.InvalidContainerType, containerType⟩

/-- The kind of a schema child, the discriminant the operations of this model
inspect on a resolved cross reference (Entity vs Relationship vs Mixin vs
Struct vs CustomAttribute). -/
inductive SchemaItemKind where
  | Entity
  | Mixin
  | Struct
  | CustomAttribute
  | Relationship
deriving DecidableEq, Repr

/-- Identity data of a schema child as seen through a resolved cross
reference: its kind and its unique name within the owning schema. -/
structure SchemaItem where
  kind : SchemaItemKind
  name : String
deriving DecidableEq, Repr

/-- Modelled from the spec: the owning `Schema` is an external collaborator
(spec sections 2 and 6) exposing `getChild(name)`, a name lookup over its
children returning the member or `undefined`. -/
structure Schema where
  children : List SchemaItem
deriving DecidableEq, Repr

/-- Modelled from the spec: `Schema.getChild` looks a child up by name
(spec section 6: a name lookup returning the schema member if present). -/
def Schema.getChild (schema : Schema) (name : String) : Option SchemaItem :=
  schema.children.find? (fun c => c.name = name)

/-- The `schema` field a `SchemaChild` carries: the source guards it with
`typeof(this.schema) !== "string"`, so it is either a resolved `Schema`
object or a still-unresolved schema name. -/
inductive SchemaRef where
  | resolved (schema : Schema)
  | byName (name : String)
deriving DecidableEq, Repr

/-- A cross reference stored in a field such as `baseClass` or `appliesTo`:
either a resolved schema child, or the raw name string the source stores when
the owning schema is not available to resolve against. -/
inductive ClassRef where
  | resolved (item : SchemaItem)
  | unresolvedName (name : String)
deriving DecidableEq, Repr

/-- The property variants (from `Property.ts`, referenced but not under the
provided sources): each is a leaf value-holder with a name, a type reference
and, for Navigation, a relationship reference plus direction (spec section 3). -/
inductive ECProperty where
  | primitive (name : String) (type : Option PrimitiveType)
  | primitiveArray (name : String) (type : Option PrimitiveType)
  | structProp (name : String) (type : SchemaItem)
  | structArrayProp (name : String) (type : SchemaItem)
  | navigation (name : String) (relationship : SchemaItem) (direction : RelatedInstanceDirection)
deriving DecidableEq, Repr

/-- The `name` of a property, as read by `getProperty`. -/
def ECProperty.name : ECProperty → String
  | .primitive n _ => n
  | .primitiveArray n _ => n
  | .structProp n _ => n
  | .structArrayProp n _ => n
  | .navigation n _ _ => n

/-- Embedding of `String.prototype.toLowerCase()` as used for the
case-insensitive property-name comparisons: lowers each character (the
library's `String.toLower` computes the same string but its well-founded
recursion does not reduce in the kernel). -/
def strToLower (s : String) : String := ⟨s.data.map Char.toLower⟩

/-- The data of the abstract `ECClass` base: the inherited `SchemaChild` name
and schema, the `modifier`, the optional `baseClass` reference and the
optional ordered `properties` list (`undefined` until the first property is
added, matching `properties?: PropertyInterface[]`). -/
structure ECClassData where
  name : String
  schema : Option SchemaRef := none
  modifier : ECClassModifier := ECClassModifier.None
  baseClass : Option ClassRef := none
  properties : Option (List ECProperty) := none
deriving DecidableEq, Repr

/-- The `ECClass` constructor: stores the name and the modifier, defaulting
the modifier to `None` when omitted (the source's `if (modifier)` truthiness
test also defaults on the numeric-zero `None` value, which coincides). -/
def ECClassData.create (name : String) (modifier : Option ECClassModifier := none) : ECClassData :=
  { name := name, modifier := modifier.getD ECClassModifier.None }

/-- `ECClass.getProperty`: case-insensitive search for a local property by
name; returns the found property or nothing; only `this.properties` is
consulted, never the base class. -/
def ECClassData.getProperty (c : ECClassData) (name : String) : Option ECProperty :=
  match c.properties with
  | none => none
  | some props => props.find? (fun p => strToLower p.name = strToLower name)

/-- Appends a freshly created property, initializing `properties` to the
empty list first when it is still absent (the shared
`if (!this.properties) this.properties = []; this.properties.push(...)`
tail of every `create*Property` method). -/
def ECClassData.pushProperty (c : ECClassData) (p : ECProperty) : ECClassData :=
  { c with properties := some ((c.properties.getD []).concat p) }

/-- The duplicate-name error every `create*Property` method throws. -/
def duplicatePropertyError (propName : String) (className : String) : ECObjectsError :=
  ⟨.DuplicateProperty,
    "An ECProperty with the name " ++ propName ++ " already exists in the class " ++ className ++ "."⟩

/-- `ECClass.createPrimitiveProperty`: fails with `DuplicateProperty` when a
property of the name already exists locally; otherwise resolves a string type
through the primitive lookup table and appends the new property, returning it. -/
def ECClassData.createPrimitiveProperty (c : ECClassData) (name : String)
    (type : Option (String ⊕ PrimitiveType) := none) : Except ECObjectsError (ECProperty × ECClassData) :=
  if (c.getProperty name).isSome then
    .error (duplicatePropertyError name c.name)
  else
    let correctType : Option PrimitiveType :=
      match type with
      | some (.inl s) => parsePrimitiveType s
      | some (.inr t) => some t
      | none => none
    let primProp := ECProperty.primitive name correctType
    .ok (primProp, c.pushProperty primProp)

/-- `ECClass.createPrimitiveArrayProperty`: same contract as
`createPrimitiveProperty`, creating the array variant. -/
def ECClassData.createPrimitiveArrayProperty (c : ECClassData) (name : String)
    (type : Option (String ⊕ PrimitiveType) := none) : Except ECObjectsError (ECProperty × ECClassData) :=
  if (c.getProperty name).isSome then
    .error (duplicatePropertyError name c.name)
  else
    let correctType : Option PrimitiveType :=
      match type with
      | some (.inl s) => parsePrimitiveType s
      | some (.inr t) => some t
      | none => none
    let primArrProp := ECProperty.primitiveArray name correctType
    .ok (primArrProp, c.pushProperty primArrProp)

/-- `ECClass.createStructProperty`: fails with `DuplicateProperty` on a local
name clash; a string type is resolved through the owning schema's `getChild`
(a missing or unresolved owning schema yields no type, where the source would
fault on the absent schema object); an unresolved type fails with the
empty-message base error. -/
def ECClassData.createStructProperty (c : ECClassData) (name : String)
    (type : String ⊕ SchemaItem) : Except ECObjectsError (ECProperty × ECClassData) :=
  if (c.getProperty name).isSome then
    .error (duplicatePropertyError name c.name)
  else
    let correctType : Option SchemaItem :=
      match type with
      | .inl s =>
        match c.schema with
        | some (.resolved schema) => schema.getChild s
        | _ => none
      | .inr t => some t
    match correctType with
    | none => .error ⟨.ECOBJECTS_ERROR_BASE, ""⟩
    | some t =>
      let structProp := ECProperty.structProp name t
      .ok (structProp, c.pushProperty structProp)

/-- `ECClass.createStructArrayProperty`: same contract as
`createStructProperty`, creating the array variant. -/
def ECClassData.createStructArrayProperty (c : ECClassData) (name : String)
    (type : String ⊕ SchemaItem) : Except ECObjectsError (ECProperty × ECClassData) :=
  if (c.getProperty name).isSome then
    .error (duplicatePropertyError name c.name)
  else
    let correctType : Option SchemaItem :=
      match type with
      | .inl s =>
        match c.schema with
        | some (.resolved schema) => schema.getChild s
        | _ => none
      | .inr t => some t
    match correctType with
    | none => .error ⟨.ECOBJECTS_ERROR_BASE, ""⟩
    | some t =>
      let structArrProp := ECProperty.structArrayProp name t
      .ok (structArrProp, c.pushProperty structArrProp)

/-- `createNavigationProperty`, shared body of the textually identical
`EntityClass.createNavigationProperty` and
`RelationshipClass.createNavigationProperty`: fails with `DuplicateProperty`
on a local name clash; a string `relationship` is the unimplemented path and
fails with the empty-message base error; a string `direction` is parsed to
the enum; the navigation property is appended and returned. -/
def ECClassData.createNavigationProperty (c : ECClassData) (name : String)
    (relationship : String ⊕ SchemaItem)
    (direction : String ⊕ RelatedInstanceDirection) : Except ECObjectsError (ECProperty × ECClassData) :=
  if (c.getProperty name).isSome then
    .error (duplicatePropertyError name c.name)
  else
    match relationship with
    | .inl _ => .error ⟨.ECOBJECTS_ERROR_BASE, ""⟩
    | .inr rel =>
      match (match direction with
             | .inl s => parseStrengthDirection s
             | .inr d => .ok d) with
      | .error e => .error e
      | .ok dir =>
        let navProp := ECProperty.navigation name rel dir
        .ok (navProp, c.pushProperty navProp)

/-- Modelled from the spec: `SchemaChild.fromJson` (the external base class
population, not under the provided sources) populates only base
`SchemaChild` fields; it touches none of the fields modelled here and the
spec describes no failure of its own, so it is the identity step. -/
def SchemaChild.fromJson (c : ECClassData) (_jsonObj : Json) : Except ECObjectsError ECClassData :=
  .ok c

/-- `ECClass.fromJson`: after the base `SchemaChild` population, parses a
truthy `modifier`; for a truthy `baseClass` it first requires a string, then,
when the owning schema is a resolved object, resolves the name through it
(failing with `InvalidECJson` when `getChild` finds nothing) and stores the
resolved class; without a resolved owning schema the raw name string is
stored instead. -/
def ECClassData.fromJson (c : ECClassData) (jsonObj : Json) : Except ECObjectsError ECClassData := do
  let c ← SchemaChild.fromJson c jsonObj
  let c ←
    if jsTruthy (jsonObj.get "modifier") then do
      let m ← parseClassModifier ((jsonObj.get "modifier").getD .null).asString
      pure { c with modifier := m }
    else
      pure c
  if jsTruthy (jsonObj.get "baseClass") then
    let bval := (jsonObj.get "baseClass").getD .null
    if !bval.isString then
      .error ⟨.InvalidECJson, "The base class of " ++ c.name ++ " is not a string type."⟩
    else
      match c.schema with
      | some (.resolved schema) =>
        match schema.getChild bval.asString with
        | none => .error ⟨.InvalidECJson, ""⟩
        | some baseClass => .ok { c with baseClass := some (.resolved baseClass) }
      | _ => .ok { c with baseClass := some (.unresolvedName bval.asString) }
  else
    .ok c

/-- `EntityClass`: an `ECClass` that additionally carries `mixins`
(`undefined` until the first mixin is appended). -/
structure EntityClass extends ECClassData where
  mixins : Option (List SchemaItem) := none
deriving DecidableEq, Repr

/-- The `loadMixin` closure of `EntityClass.fromJson`: resolves one mixin
name through the owning schema (`this.schema.getChild`; a non-string element
or an unresolved owning schema resolves to nothing, where the source would
respectively find no child and fault on the absent schema object), failing
with `InvalidECJson` when nothing is found, and appends the resolved mixin,
initializing `mixins` on first use. -/
def EntityClass.loadMixin (e : EntityClass) (mixinFullName : Json) : Except ECObjectsError EntityClass :=
  let tempMixin : Option SchemaItem :=
    match e.schema, mixinFullName with
    | some (.resolved schema), .str n => schema.getChild n
    | _, _ => none
  match tempMixin with
  | none => .error ⟨.InvalidECJson, ""⟩
  | some m => .ok { e with mixins := some ((e.mixins.getD []).concat m) }

/-- The `jsonObj.mixin.forEach(...)` loop of `EntityClass.fromJson`: loads
each element in array order, stopping at the first thrown error. -/
def EntityClass.loadMixins (e : EntityClass) : List Json → Except ECObjectsError EntityClass
  | [] => .ok e
  | m :: rest => do
    let e ← e.loadMixin m
    e.loadMixins rest

/-- `EntityClass.fromJson`: after the base `ECClass` parsing, a truthy
`mixin` field is handled as a single name string, or an array of names
loaded in order, or any other (truthy) value fails with `InvalidECJson`. -/
def EntityClass.fromJson (e : EntityClass) (jsonObj : Json) : Except ECObjectsError EntityClass := do
  let base ← e.toECClassData.fromJson jsonObj
  let e := { e with toECClassData := base }
  if jsTruthy (jsonObj.get "mixin") then
    let mval := (jsonObj.get "mixin").getD .null
    if mval.isString then
      e.loadMixin mval
    else if mval.isArray then
      e.loadMixins mval.asArray
    else
      .error ⟨.InvalidECJson,
        "The Mixin on ECEntityClass " ++ e.name ++ " is an invalid type. It must be of Json type string or an array of strings."⟩
  else
    .ok e

/-- `MixinClass`: an `ECClass` with an `appliesTo` reference (uninitialized
until `fromJson` resolves it). -/
structure MixinClass extends ECClassData where
  appliesTo : Option ClassRef := none
deriving DecidableEq, Repr

/-- `MixinClass.fromJson`: after the base `ECClass` parsing, a truthy
`appliesTo` is resolved through the owning schema's `getChild` (a non-string
value or an unresolved owning schema resolves to nothing, where the source
would respectively find no child and fault on the absent schema object);
an unresolved name fails with `InvalidECJson`; an absent or falsy
`appliesTo` is simply skipped. -/
def MixinClass.fromJson (m : MixinClass) (jsonObj : Json) : Except ECObjectsError MixinClass := do
  let base ← m.toECClassData.fromJson jsonObj
  let m := { m with toECClassData := base }
  if jsTruthy (jsonObj.get "appliesTo") then
    let tmpClass : Option SchemaItem :=
      match m.schema, jsonObj.get "appliesTo" with
      | some (.resolved schema), some (.str n) => schema.getChild n
      | _, _ => none
    match tmpClass with
    | none => .error ⟨.InvalidECJson, ""⟩
    | some c => .ok { m with appliesTo := some (.resolved c) }
  else
    .ok m

/-- `StructClass`: an `ECClass` with no additional members. -/
structure StructClass extends ECClassData where
deriving DecidableEq, Repr

/-- `CustomAttributeClass`: an `ECClass` with a `containerType`
(uninitialized until `fromJson` parses it). -/
structure CustomAttributeClass extends ECClassData where
  containerType : Option CustomAttributeContainerType := none
deriving DecidableEq, Repr

/-- `CustomAttributeClass.fromJson`: after the base `ECClass` parsing, a
falsy (in particular absent) `appliesTo` fails with the missing-property
`InvalidECJson` error; a non-string `appliesTo` fails with `InvalidECJson`;
otherwise the string is parsed into the `containerType` enum. -/
def CustomAttributeClass.fromJson (c : CustomAttributeClass) (jsonObj : Json) : Except ECObjectsError CustomAttributeClass := do
  let base ← c.toECClassData.fromJson jsonObj
  let c := { c with toECClassData := base }
  if !jsTruthy (jsonObj.get "appliesTo") then
    .error ⟨.InvalidECJson,
      "The Custom Attribute class " ++ c.name ++ " is missing the required 'appliesTo' property."⟩
  else if !((jsonObj.get "appliesTo").getD .null).isString then
    .error ⟨.InvalidECJson, ""⟩
  else do
    let ct ← parseCustomAttributeContainerType ((jsonObj.get "appliesTo").getD .null).asString
    .ok { c with containerType := some ct }

/-- Multiplicity of a relationship endpoint (`RelationshipMultiplicity` from
`ECObjects.ts`, not under the provided sources): a lower bound and an upper
bound, `none` standing for the unbounded `*`. -/
structure RelationshipMultiplicity where
  lowerLimit : Nat
  upperLimit : Option Nat
deriving DecidableEq, Repr

/-- The `0..1` multiplicity constant, the constructor default of a
`RelationshipConstraint` (spec section 3: multiplicity default 0..1). -/
def RelationshipMultiplicity.zeroOne : RelationshipMultiplicity := ⟨0, some 1⟩

/-- Splits a character list at the first occurrence of the `..` separator of
a multiplicity string, yielding the parts before and after it. -/
def splitDots : List Char → Option (List Char × List Char)
  | [] => none
  | '.' :: '.' :: rest => some ([], rest)
  | c :: rest => (splitDots rest).map (fun p => (c :: p.fst, p.snd))

/-- Strips a single trailing `)` from a character list, yielding nothing when
the list does not end in `)`. -/
def stripClose : List Char → Option (List Char)
  | [] => none
  | [c] => if c = ')' then some [] else none
  | c :: rest => (stripClose rest).map (c :: ·)

/-- The number denoted by a run of decimal digits. -/
def digitsToNat (cs : List Char) : Nat :=
  cs.foldl (fun acc c => acc * 10 + (c.toNat - 48)) 0

/-- Modelled from the spec: `RelationshipMultiplicity.fromString` (from
`ECObjects.ts`, not under the provided sources) parses the textual form
`(lower..upper)` — spec section 8 shows `"(0..*)"` — with a nonempty decimal
lower bound and a nonempty decimal or `*` upper bound, yielding nothing on
any other string. -/
def RelationshipMultiplicity.fromString (str : String) : Option RelationshipMultiplicity :=
  match str.data with
  | '(' :: rest =>
    match stripClose rest with
    | none => none
    | some inner =>
      match splitDots inner with
      | none => none
      | some (lo, hi) =>
        if lo ≠ [] ∧ lo.all Char.isDigit then
          if hi = ['*'] then
            some ⟨digitsToNat lo, none⟩
          else if hi ≠ [] ∧ hi.all Char.isDigit then
            some ⟨digitsToNat lo, some (digitsToNat hi)⟩
          else none
        else none
  | _ => none

/-- The identity data a `RelationshipConstraint` reads from its owning
`RelationshipClass` back-reference: the class name and the class's owning
schema (`this.relationshipClass.schema`). -/
structure RelClassRef where
  name : String
  schema : Option SchemaRef := none
deriving DecidableEq, Repr

/-- `RelationshipConstraint`: one end of a relationship class, with the
private explicitly-set abstract constraint, the back-reference to the owning
relationship class, the end discriminant, and the `multiplicity`,
`polymorphic`, `roleLabel` and `constraintClasses` payload (`roleLabel` and
`constraintClasses` are `undefined` until first set). -/
structure RelationshipConstraint where
  abstractConstraintField : Option SchemaItem := none
  relationshipClass : RelClassRef
  relationshipEnd : RelationshipEnd
  multiplicity : RelationshipMultiplicity := RelationshipMultiplicity.zeroOne
  polymorphic : Bool := false
  roleLabel : Option String := none
  constraintClasses : Option (List SchemaItem) := none
deriving DecidableEq, Repr

/-- The `RelationshipConstraint` constructor: records the end and the
back-reference and sets the defaults `polymorphic = false` and
`multiplicity = 0..1`; everything else starts undefined. -/
def RelationshipConstraint.create (relClass : RelClassRef) (relEnd : RelationshipEnd) : RelationshipConstraint :=
  { relationshipClass := relClass
    relationshipEnd := relEnd
    polymorphic := false
    multiplicity := RelationshipMultiplicity.zeroOne }

/-- The `abstractConstraint` getter: the explicitly set abstract constraint
when present; else, when exactly one constraint class is registered, that
class; else the (absent) explicit field. -/
def RelationshipConstraint.abstractConstraint (rc : RelationshipConstraint) : Option SchemaItem :=
  match rc.abstractConstraintField with
  | some a => some a
  | none =>
    match rc.constraintClasses with
    | some l => if l.length = 1 then l[0]? else none
    | none => none

/-- Whether this constraint is the source end. -/
def RelationshipConstraint.isSource (rc : RelationshipConstraint) : Bool :=
  rc.relationshipEnd = RelationshipEnd.Source

/-- `RelationshipConstraint.addClass`, as it behaves at runtime. The source
computes `areEntityConstraints` as
`undefined !== this.constraintClasses as EntityClassInterface[]` — the cast
is erased, so this only tests that the collection exists — and guards with
`areEntityConstraints && (undefined === constraint as EntityClassInterface)`,
where the erased cast leaves `undefined === constraint`, false for every
actual argument, so the guard never throws (the `TODO: Handle relationship
constraints` comment marks the kind check as unimplemented). Both branches
of the final push append the argument identically, initializing the
collection on first use. -/
def RelationshipConstraint.addClass (rc : RelationshipConstraint) (constraint : SchemaItem) : Except ECObjectsError RelationshipConstraint :=
  let areEntityConstraints := rc.constraintClasses.isSome
  if areEntityConstraints && false then
    .error ⟨.InvalidECJson, ""⟩
  else
    .ok { rc with constraintClasses := some ((rc.constraintClasses.getD []).concat constraint) }

/-- `RelationshipClass`: an `ECClass` with `strength`, `strengthDirection`
and the two eagerly created, never reassigned end constraints. -/
structure RelationshipClass extends ECClassData where
  strength : StrengthType
  strengthDirection : RelatedInstanceDirection
  source : RelationshipConstraint
  target : RelationshipConstraint
deriving DecidableEq, Repr

/-- The `RelationshipClass` constructor: defaults `strength` to
`Referencing` and `strengthDirection` to `Forward` when the arguments are
omitted (the source's truthiness tests also default on the numeric-zero enum
values, which coincide with these defaults), and eagerly creates the source
and target constraints, each back-referencing the class under construction. -/
def RelationshipClass.create (name : String)
    (strength : Option StrengthType := none)
    (strengthDirection : Option RelatedInstanceDirection := none)
    (modifier : Option ECClassModifier := none) : RelationshipClass :=
  let base := ECClassData.create name modifier
  { toECClassData := base
    strength := strength.getD StrengthType.Referencing
    strengthDirection := strengthDirection.getD RelatedInstanceDirection.Forward
    source := RelationshipConstraint.create ⟨base.name, base.schema⟩ RelationshipEnd.Source
    target := RelationshipConstraint.create ⟨base.name, base.schema⟩ RelationshipEnd.Target }

/-- `RelationshipClass.fromJson`: after the base `ECClass` parsing, truthy
`strength` and `strengthDirection` strings are parsed through their
dedicated parsers. -/
def RelationshipClass.fromJson (r : RelationshipClass) (jsonObj : Json) : Except ECObjectsError RelationshipClass := do
  let base ← r.toECClassData.fromJson jsonObj
  let r := { r with toECClassData := base }
  let r ←
    if jsTruthy (jsonObj.get "strength") then do
      let s ← parseStrength ((jsonObj.get "strength").getD .null).asString
      pure { r with strength := s }
    else pure r
  if jsTruthy (jsonObj.get "strengthDirection") then do
    let d ← parseStrengthDirection ((jsonObj.get "strengthDirection").getD .null).asString
    pure { r with strengthDirection := d }
  else pure r

/-- The first two statements of `RelationshipConstraint.fromJson`: `roleLabel`
and `polymorphic` are copied directly, each only when its JSON field is
truthy (`if (jsonObj.roleLabel) ...; if (jsonObj.polymorphic) ...`). -/
def RelationshipConstraint.fromJsonLabels (rc : RelationshipConstraint) (jsonObj : Json) : RelationshipConstraint :=
  let rc :=
    if jsTruthy (jsonObj.get "roleLabel") then
      { rc with roleLabel := some ((jsonObj.get "roleLabel").getD .null).asString }
    else rc
  if jsTruthy (jsonObj.get "polymorphic") then
    { rc with polymorphic := ((jsonObj.get "polymorphic").getD .null).asBool }
  else rc

/-- The `multiplicity` statement of `RelationshipConstraint.fromJson`: a
truthy `multiplicity` is passed to `RelationshipMultiplicity.fromString` (a
truthy non-string never matches the parser's textual form), and a failed
parse throws `InvalidMultiplicity`. -/
def RelationshipConstraint.fromJsonMultiplicity (rc : RelationshipConstraint) (jsonObj : Json) : Except ECObjectsError RelationshipConstraint :=
  if jsTruthy (jsonObj.get "multiplicity") then
    match RelationshipMultiplicity.fromString ((jsonObj.get "multiplicity").getD .null).asString with
    | none => .error ⟨.InvalidMultiplicity, ""⟩
    | some multTmp => .ok { rc with multiplicity := multTmp }
  else .ok rc

/-- The `abstractConstraint` statement of `RelationshipConstraint.fromJson`:
a truthy value must be a string (else `InvalidECJson`); when the owning
relationship class's schema is a resolved object the name is resolved
through it, failing with `InvalidECJson` when nothing is found and storing
the result otherwise (the source's `=== null` ternary on erased casts picks
the same value either way); without a resolved schema the statement is
skipped. -/
def RelationshipConstraint.fromJsonAbstract (rc : RelationshipConstraint) (jsonObj : Json) : Except ECObjectsError RelationshipConstraint :=
  if jsTruthy (jsonObj.get "abstractConstraint") then
    let v := (jsonObj.get "abstractConstraint").getD .null
    if !v.isString then .error ⟨.InvalidECJson, ""⟩
    else
      match rc.relationshipClass.schema with
      | some (.resolved schema) =>
        match schema.getChild v.asString with
        | none => .error ⟨.InvalidECJson, ""⟩
        | some tempAbstractConstraint => .ok { rc with abstractConstraintField := some tempAbstractConstraint }
      | _ => .ok rc
  else .ok rc

/-- The `jsonObj.constraintClasses.forEach(...)` loop of
`RelationshipConstraint.fromJson`: for each entry, when the owning class's
schema is a resolved object the entry is resolved through it (a non-string
entry finds no child), an unresolved entry throws `InvalidECJson`, and the
resolved class is handed to `addClass`; without a resolved schema the loop
body does nothing for the entry. -/
def RelationshipConstraint.loadConstraintClasses (rc : RelationshipConstraint) : List Json → Except ECObjectsError RelationshipConstraint
  | [] => .ok rc
  | constraintClass :: rest =>
    match rc.relationshipClass.schema with
    | some (.resolved schema) =>
      match (match constraintClass with
             | .str n => schema.getChild n
             | _ => none) with
      | none => .error ⟨.InvalidECJson, ""⟩
      | some tempConstraintClass =>
        match rc.addClass tempConstraintClass with
        | .error e => .error e
        | .ok rc2 => rc2.loadConstraintClasses rest
    | _ => rc.loadConstraintClasses rest

/-- The `constraintClasses` statement of `RelationshipConstraint.fromJson`:
a truthy value must be an array (else `InvalidECJson`), whose entries are
loaded in order. -/
def RelationshipConstraint.fromJsonConstraintClasses (rc : RelationshipConstraint) (jsonObj : Json) : Except ECObjectsError RelationshipConstraint :=
  if jsTruthy (jsonObj.get "constraintClasses") then
    let v := (jsonObj.get "constraintClasses").getD .null
    if !v.isArray then .error ⟨.InvalidECJson, ""⟩
    else rc.loadConstraintClasses v.asArray
  else .ok rc

/-- `RelationshipConstraint.fromJson`: the four statement groups of the
source in order — copy truthy `roleLabel`/`polymorphic`, parse a truthy
`multiplicity`, resolve a truthy `abstractConstraint`, then resolve and add
each `constraintClasses` entry. -/
def RelationshipConstraint.fromJson (rc : RelationshipConstraint) (jsonObj : Json) : Except ECObjectsError RelationshipConstraint := do
  let rc := rc.fromJsonLabels jsonObj
  let rc ← rc.fromJsonMultiplicity jsonObj
  let rc ← rc.fromJsonAbstract jsonObj
  rc.fromJsonConstraintClasses jsonObj

/-- A small sample schema used by concrete witnesses: two entity classes, two
mixins, one struct and one relationship class. -/
def sampleSchema : Schema :=
  ⟨[⟨SchemaItemKind.Entity, "A"⟩, ⟨SchemaItemKind.Entity, "B"⟩,
    ⟨SchemaItemKind.Mixin, "MA"⟩, ⟨SchemaItemKind.Mixin, "MB"⟩,
    ⟨SchemaItemKind.Struct, "S"⟩, ⟨SchemaItemKind.Relationship, "R"⟩]⟩

/-- A sample class owned by `sampleSchema` holding one property named
`Length`, used by concrete witnesses. -/
def sampleClass : ECClassData :=
  { name := "Widget"
    schema := some (.resolved sampleSchema)
    properties := some [ECProperty.primitive "Length" none] }

/-- A sample relationship constraint whose owning class is resolved against
`sampleSchema`, used by concrete witnesses. -/
def sampleConstraint : RelationshipConstraint :=
  RelationshipConstraint.create ⟨"R", some (.resolved sampleSchema)⟩ RelationshipEnd.Source

theorem exceptBindOk {ε α β : Type} (x : α) (k : α → Except ε β) :
    (bind (Except.ok x) k : Except ε β) = k x :=
  rfl

theorem exceptBindErr {ε α β : Type} (err : ε) (k : α → Except ε β) :
    (bind (Except.error err) k : Except ε β) = Except.error err :=
  rfl

theorem findIsSomeOfMem {α : Type} {p : α → Bool} {x : α} :
    ∀ {l : List α}, x ∈ l → p x = true → (l.find? p).isSome = true := by
  intro l
  induction l with
  | nil => intro h _; cases h
  | cons a t ih =>
    intro hmem hp
    cases hmem with
    | head => simp [List.find?, hp]
    | tail _ ht =>
      cases hpa : p a with
      | true => simp [List.find?, hpa]
      | false => simpa [List.find?, hpa] using ih ht hp

/-- C1: on every ECClass, each of the five property-creation calls
(createPrimitiveProperty, createPrimitiveArrayProperty, createStructProperty,
createStructArrayProperty, createNavigationProperty) fails with the
DuplicateProperty error as soon as a property whose name equals the given
name case-insensitively already exists in the class's local property list;
the embedding returns only the error, so the failed call produces no updated
class and the property list stands unchanged. -/
theorem createProperty_duplicateName_fails
    (c : ECClassData) (nm : String) (props : List ECProperty) (p : ECProperty)
    (hprops : c.properties = some props) (hmem : p ∈ props)
    (hname : strToLower p.name = strToLower nm) :
    (∀ ty, c.createPrimitiveProperty nm ty = .error (duplicatePropertyError nm c.name)) ∧
    (∀ ty, c.createPrimitiveArrayProperty nm ty = .error (duplicatePropertyError nm c.name)) ∧
    (∀ ty, c.createStructProperty nm ty = .error (duplicatePropertyError nm c.name)) ∧
    (∀ ty, c.createStructArrayProperty nm ty = .error (duplicatePropertyError nm c.name)) ∧
    (∀ rel dir, c.createNavigationProperty nm rel dir = .error (duplicatePropertyError nm c.name)) := by
  have hfind : (c.getProperty nm).isSome = true := by
    unfold ECClassData.getProperty
    rw [hprops]
    exact findIsSomeOfMem hmem (by simp [hname])
  refine ⟨?_, ?_, ?_, ?_, ?_⟩ <;> intros <;>
    simp [ECClassData.createPrimitiveProperty, ECClassData.createPrimitiveArrayProperty,
          ECClassData.createStructProperty, ECClassData.createStructArrayProperty,
          ECClassData.createNavigationProperty, hfind]

/-- Witness for C1 at a concrete input: `sampleClass` holds a property named
`Length`, and creating any property named `LENGTH` fails with
DuplicateProperty. -/
theorem createProperty_duplicateName_fails_witness :
    sampleClass.createPrimitiveProperty "LENGTH" none
      = .error (duplicatePropertyError "LENGTH" "Widget") ∧
    sampleClass.createNavigationProperty "LENGTH"
        (.inr ⟨SchemaItemKind.Relationship, "R"⟩) (.inr RelatedInstanceDirection.Forward)
      = .error (duplicatePropertyError "LENGTH" "Widget") := by
  have h := createProperty_duplicateName_fails sampleClass "LENGTH"
    [ECProperty.primitive "Length" none] (ECProperty.primitive "Length" none)
    rfl (by simp) (by decide)
  exact ⟨h.1 none, h.2.2.2.2 (.inr ⟨SchemaItemKind.Relationship, "R"⟩) (.inr RelatedInstanceDirection.Forward)⟩

/-- C2 (the code at the claim's failing input): a constraint whose collection
already holds an Entity-kind class accepts a Relationship-kind argument
without any error and appends it — the source's kind test is an erased
TypeScript cast (and a TODO marks relationship handling unimplemented), so
`addClass` never raises the InvalidECJson mismatch error the claim
describes. -/
theorem addClass_kindMismatch_appends :
    ({ sampleConstraint with constraintClasses := some [⟨SchemaItemKind.Entity, "A"⟩] }).addClass
        ⟨SchemaItemKind.Relationship, "R"⟩
      = .ok { sampleConstraint with
                constraintClasses := some [⟨SchemaItemKind.Entity, "A"⟩, ⟨SchemaItemKind.Relationship, "R"⟩] } := by
  rfl

/-- C3: the abstractConstraint getter returns the explicitly set abstract
constraint when one is present; otherwise, when exactly one constraint class
is registered, it returns that single class; otherwise it returns the absent
explicit value. -/
theorem abstractConstraint_getter_spec (rc : RelationshipConstraint) :
    (∀ a, rc.abstractConstraintField = some a → rc.abstractConstraint = some a) ∧
    (rc.abstractConstraintField = none →
      ∀ l, rc.constraintClasses = some l → l.length = 1 → rc.abstractConstraint = l[0]?) ∧
    (rc.abstractConstraintField = none →
      (¬ ∃ l, rc.constraintClasses = some l ∧ l.length = 1) → rc.abstractConstraint = none) := by
  refine ⟨?_, ?_, ?_⟩
  · intro a ha
    simp [RelationshipConstraint.abstractConstraint, ha]
  · intro ha l hl hlen
    simp [RelationshipConstraint.abstractConstraint, ha, hl, hlen]
  · intro ha hn
    unfold RelationshipConstraint.abstractConstraint
    rw [ha]
    match hl : rc.constraintClasses with
    | none => rfl
    | some l =>
      have : l.length ≠ 1 := fun h => hn ⟨l, hl, h⟩
      simp [this]

/-- Witness for C3 at a concrete input: with no explicit abstract constraint
and exactly one constraint class, the getter returns that class. -/
theorem abstractConstraint_getter_spec_witness :
    ({ sampleConstraint with constraintClasses := some [⟨SchemaItemKind.Entity, "A"⟩] }).abstractConstraint
      = some ⟨SchemaItemKind.Entity, "A"⟩ := by
  have h := (abstractConstraint_getter_spec
    { sampleConstraint with constraintClasses := some [⟨SchemaItemKind.Entity, "A"⟩] }).2.1
    rfl [⟨SchemaItemKind.Entity, "A"⟩] rfl rfl
  simpa using h

/-- C4: constructing a RelationshipClass with strength and strengthDirection
omitted yields strength Referencing and strengthDirection Forward, and both
end constraints exist after construction, the source with end Source and the
target with end Target, each back-referencing the constructed class (here by
its identity data: name and owning schema). -/
theorem relationshipClass_create_defaults (name : String) (modifier : Option ECClassModifier) :
    (RelationshipClass.create name none none modifier).strength = StrengthType.Referencing ∧
    (RelationshipClass.create name none none modifier).strengthDirection = RelatedInstanceDirection.Forward ∧
    (RelationshipClass.create name none none modifier).source
      = RelationshipConstraint.create ⟨name, none⟩ RelationshipEnd.Source ∧
    (RelationshipClass.create name none none modifier).target
      = RelationshipConstraint.create ⟨name, none⟩ RelationshipEnd.Target ∧
    (RelationshipClass.create name none none modifier).source.relationshipClass.name = name ∧
    (RelationshipClass.create name none none modifier).source.relationshipEnd = RelationshipEnd.Source ∧
    (RelationshipClass.create name none none modifier).target.relationshipClass.name = name ∧
    (RelationshipClass.create name none none modifier).target.relationshipEnd = RelationshipEnd.Target := by
  simp [RelationshipClass.create, RelationshipConstraint.create, ECClassData.create]

/-- C8: getProperty looks the name up case-insensitively in the local
property list — when a property with a matching name is in the list the
lookup succeeds, every case variant of the lookup name returns the same
result — and the result never depends on the base class. -/
theorem getProperty_caseInsensitive_local
    (c : ECClassData) (props : List ECProperty) (p : ECProperty) (nm : String)
    (hprops : c.properties = some props) (hmem : p ∈ props)
    (hname : strToLower p.name = strToLower nm) :
    (c.getProperty nm).isSome = true ∧
    (∀ s, strToLower s = strToLower nm → c.getProperty s = c.getProperty nm) ∧
    (∀ b, ECClassData.getProperty { c with baseClass := b } nm = c.getProperty nm) := by
  refine ⟨?_, ?_, ?_⟩
  · unfold ECClassData.getProperty
    rw [hprops]
    exact findIsSomeOfMem hmem (by simp [hname])
  · intro s hs
    unfold ECClassData.getProperty
    rw [hs]
  · intro b
    unfold ECClassData.getProperty
    rfl

/-- Witness for C8 at a concrete input: `sampleClass` holds `Length`; the
lookups `length` and `LENGTH` both succeed, agree, and ignore the base
class. -/
theorem getProperty_caseInsensitive_local_witness :
    (sampleClass.getProperty "LENGTH").isSome = true ∧
    sampleClass.getProperty "length" = sampleClass.getProperty "LENGTH" ∧
    ECClassData.getProperty
        { sampleClass with baseClass := some (.resolved ⟨SchemaItemKind.Entity, "A"⟩) } "LENGTH"
      = sampleClass.getProperty "LENGTH" := by
  have h := getProperty_caseInsensitive_local sampleClass
    [ECProperty.primitive "Length" none] (ECProperty.primitive "Length" none) "LENGTH"
    rfl (by simp) (by decide)
  exact ⟨h.1, h.2.1 "length" (by decide), h.2.2 (some (.resolved ⟨SchemaItemKind.Entity, "A"⟩))⟩

theorem exceptPure {ε α : Type} (a : α) : (pure a : Except ε α) = Except.ok a := rfl

theorem ecFromJson_skip (c : ECClassData) (js : Json)
    (hm : jsTruthy (js.get "modifier") = false)
    (hb : jsTruthy (js.get "baseClass") = false) :
    c.fromJson js = .ok c := by
  simp [ECClassData.fromJson, SchemaChild.fromJson, exceptBindOk, exceptPure, hm, hb]

theorem fromJsonLabels_multiplicity (rc : RelationshipConstraint) (js : Json) :
    (rc.fromJsonLabels js).multiplicity = rc.multiplicity := by
  cases h1 : jsTruthy (js.get "roleLabel") <;> cases h2 : jsTruthy (js.get "polymorphic") <;>
    simp [RelationshipConstraint.fromJsonLabels, h1, h2]

theorem fromJsonLabels_polymorphic_falsy (rc : RelationshipConstraint) (js : Json)
    (h : js.get "polymorphic" = some (.bool false)) :
    (rc.fromJsonLabels js).polymorphic = rc.polymorphic := by
  have h2 : jsTruthy (js.get "polymorphic") = false := by rw [h]; rfl
  cases h1 : jsTruthy (js.get "roleLabel") <;>
    simp [RelationshipConstraint.fromJsonLabels, h1, h2]

theorem fromJsonLabels_roleLabel_falsy (rc : RelationshipConstraint) (js : Json)
    (h : js.get "roleLabel" = some (.str "")) :
    (rc.fromJsonLabels js).roleLabel = rc.roleLabel := by
  have h1 : jsTruthy (js.get "roleLabel") = false := by rw [h]; rfl
  cases h2 : jsTruthy (js.get "polymorphic") <;>
    simp [RelationshipConstraint.fromJsonLabels, h1, h2]

theorem fromJsonLabels_polymorphic_true (rc : RelationshipConstraint) (js : Json)
    (h : js.get "polymorphic" = some (.bool true)) :
    (rc.fromJsonLabels js).polymorphic = true := by
  have h2 : jsTruthy (js.get "polymorphic") = true := by rw [h]; rfl
  cases h1 : jsTruthy (js.get "roleLabel") <;>
    simp [RelationshipConstraint.fromJsonLabels, h1, h2, h, Json.asBool, jsTruthy]

theorem fromJsonLabels_roleLabel_set (rc : RelationshipConstraint) (js : Json) (s : String)
    (h : js.get "roleLabel" = some (.str s)) (hne : s ≠ "") :
    (rc.fromJsonLabels js).roleLabel = some s := by
  have h1 : jsTruthy (js.get "roleLabel") = true := by rw [h]; simpa [jsTruthy] using hne
  unfold RelationshipConstraint.fromJsonLabels
  simp only [h1]
  simp only [h]
  cases h2 : jsTruthy (js.get "polymorphic") <;> simp [h2, Json.asString]

theorem fromJsonMultiplicity_preserves (rc rc' : RelationshipConstraint) (js : Json)
    (h : rc.fromJsonMultiplicity js = .ok rc') :
    rc'.polymorphic = rc.polymorphic ∧ rc'.roleLabel = rc.roleLabel := by
  unfold RelationshipConstraint.fromJsonMultiplicity at h
  split at h
  · split at h
    · simp at h
    · cases h; exact ⟨rfl, rfl⟩
  · cases h; exact ⟨rfl, rfl⟩

theorem fromJsonAbstract_preserves (rc rc' : RelationshipConstraint) (js : Json)
    (h : rc.fromJsonAbstract js = .ok rc') :
    rc'.multiplicity = rc.multiplicity ∧ rc'.polymorphic = rc.polymorphic ∧
      rc'.roleLabel = rc.roleLabel := by
  simp only [RelationshipConstraint.fromJsonAbstract] at h
  split at h
  · split at h
    · simp at h
    · split at h
      · split at h
        · simp at h
        · cases h; exact ⟨rfl, rfl, rfl⟩
      · cases h; exact ⟨rfl, rfl, rfl⟩
  · cases h; exact ⟨rfl, rfl, rfl⟩

theorem loadConstraintClasses_preserves :
    ∀ (xs : List Json) (rc rc' : RelationshipConstraint),
      rc.loadConstraintClasses xs = .ok rc' →
      rc'.multiplicity = rc.multiplicity ∧ rc'.polymorphic = rc.polymorphic ∧
        rc'.roleLabel = rc.roleLabel := by
  intro xs
  induction xs with
  | nil =>
    intro rc rc' h
    cases h
    exact ⟨rfl, rfl, rfl⟩
  | cons x rest ih =>
    intro rc rc' h
    simp only [RelationshipConstraint.loadConstraintClasses] at h
    split at h
    · split at h
      · simp at h
      · simp only [RelationshipConstraint.addClass, Bool.and_false, Bool.false_eq_true,
          if_false] at h
        have hrec := ih _ _ h
        exact hrec
    · exact ih _ _ h

theorem fromJsonConstraintClasses_preserves (rc rc' : RelationshipConstraint) (js : Json)
    (h : rc.fromJsonConstraintClasses js = .ok rc') :
    rc'.multiplicity = rc.multiplicity ∧ rc'.polymorphic = rc.polymorphic ∧
      rc'.roleLabel = rc.roleLabel := by
  simp only [RelationshipConstraint.fromJsonConstraintClasses] at h
  split at h
  · split at h
    · simp at h
    · exact loadConstraintClasses_preserves _ _ _ h
  · cases h; exact ⟨rfl, rfl, rfl⟩

theorem constraintFromJson_decompose (rc rc2 : RelationshipConstraint) (js : Json)
    (h : rc.fromJson js = .ok rc2) :
    rc2.polymorphic = (rc.fromJsonLabels js).polymorphic ∧
      rc2.roleLabel = (rc.fromJsonLabels js).roleLabel := by
  simp only [RelationshipConstraint.fromJson] at h
  cases hm1 : (rc.fromJsonLabels js).fromJsonMultiplicity js with
  | error e => rw [hm1] at h; simp [exceptBindErr] at h
  | ok rcm =>
    rw [hm1, exceptBindOk] at h
    cases ha : rcm.fromJsonAbstract js with
    | error e => rw [ha] at h; simp [exceptBindErr] at h
    | ok rca =>
      rw [ha, exceptBindOk] at h
      have p1 := fromJsonMultiplicity_preserves _ _ _ hm1
      have p2 := fromJsonAbstract_preserves _ _ _ ha
      have p3 := fromJsonConstraintClasses_preserves _ _ _ h
      constructor
      · rw [p3.2.1, p2.2.1, p1.1]
      · rw [p3.2.2, p2.2.2, p1.2]

theorem loadMixins_go (schema : Schema) :
    ∀ (xs : List Json) (ms : List SchemaItem) (e : EntityClass) (acc : List SchemaItem),
      List.Forall₂ (fun x mi => ∃ n, x = Json.str n ∧ schema.getChild n = some mi) xs ms →
      e.toECClassData.schema = some (.resolved schema) →
      e.mixins = some acc →
      e.loadMixins xs = .ok { e with mixins := some (acc ++ ms) } := by
  intro xs
  induction xs with
  | nil =>
    intro ms e acc hf he hacc
    cases hf
    obtain ⟨data, mix⟩ := e
    simp only at hacc
    subst hacc
    simp [EntityClass.loadMixins]
  | cons x rest ih =>
    intro ms e acc hf he hacc
    cases hf with
    | cons hx htail =>
      rename_i b ms2
      obtain ⟨n, rfl, hres⟩ := hx
      have hload : e.loadMixin (Json.str n)
          = .ok { e with mixins := some (acc ++ [b]) } := by
        simp [EntityClass.loadMixin, he, hres, hacc, List.concat_eq_append]
      have hrest := ih ms2 { e with mixins := some (acc ++ [b]) } (acc ++ [b]) htail he rfl
      simp only [EntityClass.loadMixins, hload, exceptBindOk]
      rw [hrest]
      simp [List.append_assoc]

theorem entityFromJson_mixinStep (e : EntityClass) (js : Json)
    (hm : jsTruthy (js.get "modifier") = false) (hb : jsTruthy (js.get "baseClass") = false)
    (xs : List Json) (hmix : js.get "mixin" = some (.arr xs)) :
    e.fromJson js = e.loadMixins xs := by
  have hbase := ecFromJson_skip e.toECClassData js hm hb
  simp [EntityClass.fromJson, hbase, exceptBindOk, hmix, jsTruthy, Json.isString,
    Json.isArray, Json.asArray]

theorem loadMixins_unresolved (schema : Schema) :
    ∀ (xs : List Json) (ms : List SchemaItem) (e : EntityClass),
      List.Forall₂ (fun x mi => ∃ n, x = Json.str n ∧ schema.getChild n = some mi) xs ms →
      e.toECClassData.schema = some (.resolved schema) →
      ∀ (bad : String) (rest : List Json), schema.getChild bad = none →
        e.loadMixins (xs ++ Json.str bad :: rest) = .error ⟨.InvalidECJson, ""⟩ := by
  intro xs
  induction xs with
  | nil =>
    intro ms e hf he bad rest hbad
    have hload : e.loadMixin (Json.str bad) = .error ⟨.InvalidECJson, ""⟩ := by
      simp [EntityClass.loadMixin, he, hbad]
    simp only [List.nil_append, EntityClass.loadMixins, hload, exceptBindErr]
  | cons x xs2 ih =>
    intro ms e hf he bad rest hbad
    cases hf with
    | cons hx htail =>
      rename_i b ms2
      obtain ⟨n, rfl, hres⟩ := hx
      have hload : e.loadMixin (Json.str n)
          = .ok { e with mixins := some ((e.mixins.getD []) ++ [b]) } := by
        simp [EntityClass.loadMixin, he, hres, List.concat_eq_append]
      simp only [List.cons_append, EntityClass.loadMixins, hload, exceptBindOk]
      exact ih ms2 { e with mixins := some ((e.mixins.getD []) ++ [b]) } htail he bad rest hbad

/-- C5 counterexample: a `baseClass` field that is present but not a string
need not fail — a falsy non-string value such as `false` is skipped entirely
by the truthiness guard and `fromJson` succeeds with the class unchanged. -/
theorem ecclass_fromJson_baseClass_cex :
    (Json.bool false).isString = false ∧
    sampleClass.fromJson (Json.obj [("baseClass", Json.bool false)]) = .ok sampleClass :=
  ⟨rfl, rfl⟩

/-- C5 (amended): with a resolved owning schema, a truthy non-string
`baseClass` fails with InvalidECJson; a truthy (nonempty) string `baseClass`
whose resolution through the owning schema finds nothing fails with
InvalidECJson, and one that resolves sets `baseClass` to the resolved class.
Falsy `baseClass` values (absent, `false`, `0`, `null`, the empty string)
are skipped. -/
theorem ecclass_fromJson_baseClass_amended
    (c : ECClassData) (js : Json) (schema : Schema)
    (hschema : c.schema = some (.resolved schema))
    (hm : jsTruthy (js.get "modifier") = false) :
    (∀ v, js.get "baseClass" = some v → jsTruthy (some v) = true → v.isString = false →
      c.fromJson js = .error ⟨.InvalidECJson, "The base class of " ++ c.name ++ " is not a string type."⟩) ∧
    (∀ s, js.get "baseClass" = some (.str s) → s ≠ "" → schema.getChild s = none →
      c.fromJson js = .error ⟨.InvalidECJson, ""⟩) ∧
    (∀ s b, js.get "baseClass" = some (.str s) → s ≠ "" → schema.getChild s = some b →
      c.fromJson js = .ok { c with baseClass := some (.resolved b) }) := by
  refine ⟨?_, ?_, ?_⟩
  · intro v hv htr hstr
    simp [ECClassData.fromJson, SchemaChild.fromJson, exceptBindOk, exceptPure, hm, hv, htr, hstr]
  · intro s hs hne hchild
    have htr : jsTruthy (some (Json.str s)) = true := by simpa [jsTruthy] using hne
    simp [ECClassData.fromJson, SchemaChild.fromJson, exceptBindOk, exceptPure, hm, hs, htr,
      Json.isString, Json.asString, hschema, hchild]
  · intro s b hs hne hchild
    have htr : jsTruthy (some (Json.str s)) = true := by simpa [jsTruthy] using hne
    simp [ECClassData.fromJson, SchemaChild.fromJson, exceptBindOk, exceptPure, hm, hs, htr,
      Json.isString, Json.asString, hschema, hchild]

/-- Witness for C5 at concrete inputs: on `sampleClass`, a non-string truthy
`baseClass` fails, an unresolvable name fails, and the name `A` resolves to
the entity `A` of `sampleSchema` and is stored. -/
theorem ecclass_fromJson_baseClass_amended_witness :
    sampleClass.fromJson (Json.obj [("baseClass", Json.num 3)])
      = .error ⟨.InvalidECJson, "The base class of " ++ "Widget" ++ " is not a string type."⟩ ∧
    sampleClass.fromJson (Json.obj [("baseClass", Json.str "Zed")]) = .error ⟨.InvalidECJson, ""⟩ ∧
    sampleClass.fromJson (Json.obj [("baseClass", Json.str "A")])
      = .ok { sampleClass with baseClass := some (.resolved ⟨SchemaItemKind.Entity, "A"⟩) } := by
  have h := ecclass_fromJson_baseClass_amended sampleClass (Json.obj [("baseClass", Json.num 3)])
    sampleSchema rfl rfl
  have h2 := ecclass_fromJson_baseClass_amended sampleClass (Json.obj [("baseClass", Json.str "Zed")])
    sampleSchema rfl rfl
  have h3 := ecclass_fromJson_baseClass_amended sampleClass (Json.obj [("baseClass", Json.str "A")])
    sampleSchema rfl rfl
  exact ⟨h.1 (Json.num 3) rfl rfl rfl,
         h2.2.1 "Zed" rfl (by decide) rfl,
         h3.2.2 "A" ⟨SchemaItemKind.Entity, "A"⟩ rfl (by decide) rfl⟩

/-- C6 counterexample: a `mixin` value that is neither a string nor an array
need not fail — the falsy value `false` is skipped by the truthiness guard
and `fromJson` succeeds with `mixins` untouched. -/
theorem entity_fromJson_mixin_cex :
    (Json.bool false).isString = false ∧ (Json.bool false).isArray = false ∧
    EntityClass.fromJson { toECClassData := sampleClass } (Json.obj [("mixin", Json.bool false)])
      = .ok { toECClassData := sampleClass } :=
  ⟨rfl, rfl, rfl⟩

/-- C6 (amended): with a resolved owning schema, a `mixin` array whose every
entry is a name resolving through the schema appends the resolved classes to
`mixins` in array order; a truthy `mixin` value that is neither a string nor
an array fails with InvalidECJson (falsy values such as `false`, `0`, `null`
are skipped); and any unresolvable name fails with InvalidECJson — both a
single (nonempty) name string that resolves to nothing and an array whose
first unresolvable entry is reached after a resolvable prefix. -/
theorem entity_fromJson_mixin_amended
    (e : EntityClass) (js : Json) (schema : Schema)
    (hschema : e.toECClassData.schema = some (.resolved schema))
    (hm : jsTruthy (js.get "modifier") = false)
    (hb : jsTruthy (js.get "baseClass") = false) :
    (∀ xs ms, js.get "mixin" = some (.arr xs) →
      List.Forall₂ (fun x mi => ∃ n, x = Json.str n ∧ schema.getChild n = some mi) xs ms →
      ∃ e2, e.fromJson js = .ok e2 ∧ e2.toECClassData = e.toECClassData ∧
        e2.mixins.getD [] = (e.mixins.getD []) ++ ms) ∧
    (∀ v, js.get "mixin" = some v → jsTruthy (some v) = true →
      v.isString = false → v.isArray = false →
      e.fromJson js = .error ⟨.InvalidECJson,
        "The Mixin on ECEntityClass " ++ e.name ++ " is an invalid type. It must be of Json type string or an array of strings."⟩) ∧
    (∀ s, js.get "mixin" = some (.str s) → s ≠ "" → schema.getChild s = none →
      e.fromJson js = .error ⟨.InvalidECJson, ""⟩) ∧
    (∀ pre ms bad rest, js.get "mixin" = some (.arr (pre ++ Json.str bad :: rest)) →
      List.Forall₂ (fun x mi => ∃ n, x = Json.str n ∧ schema.getChild n = some mi) pre ms →
      schema.getChild bad = none →
      e.fromJson js = .error ⟨.InvalidECJson, ""⟩) := by
  refine ⟨?_, ?_, ?_, ?_⟩
  · intro xs ms hmix hf
    have hstep : e.fromJson js = e.loadMixins xs := entityFromJson_mixinStep e js hm hb xs hmix
    cases hf with
    | nil =>
      exact ⟨e, by rw [hstep]; rfl, rfl, by simp⟩
    | cons hx htail =>
      rename_i b xs2 ms2
      obtain ⟨n, rfl, hres⟩ := hx
      have hload : e.loadMixin (Json.str n)
          = .ok { e with mixins := some ((e.mixins.getD []) ++ [b]) } := by
        simp [EntityClass.loadMixin, hschema, hres, List.concat_eq_append]
      have hrest := loadMixins_go schema _ ms2
        { e with mixins := some ((e.mixins.getD []) ++ [b]) } ((e.mixins.getD []) ++ [b])
        htail hschema rfl
      refine ⟨{ e with mixins := some ((e.mixins.getD []) ++ [b] ++ ms2) }, ?_, rfl, ?_⟩
      · rw [hstep]
        simp only [EntityClass.loadMixins, hload, exceptBindOk]
        exact hrest
      · simp [List.append_assoc]
  · intro v hmix htr hstr harr
    have hbase := ecFromJson_skip e.toECClassData js hm hb
    simp [EntityClass.fromJson, hbase, exceptBindOk, hmix, htr, hstr, harr]
  · intro s hmix hne hchild
    have hbase := ecFromJson_skip e.toECClassData js hm hb
    have htr : jsTruthy (some (Json.str s)) = true := by simpa [jsTruthy] using hne
    simp [EntityClass.fromJson, hbase, exceptBindOk, hmix, htr, Json.isString,
      EntityClass.loadMixin, hschema, hchild]
  · intro pre ms bad rest hmix hf hbad
    have hstep := entityFromJson_mixinStep e js hm hb (pre ++ Json.str bad :: rest) hmix
    rw [hstep]
    exact loadMixins_unresolved schema pre ms e hf hschema bad rest hbad

/-- Witness for C6 at concrete inputs: the mixin names `MA` and `MB` both
resolve in `sampleSchema` and are appended in order; the unresolvable name
`Nope` fails with InvalidECJson both as a single string and as an array
entry following the resolvable `MA`. -/
theorem entity_fromJson_mixin_amended_witness :
    (∃ e2, EntityClass.fromJson { toECClassData := sampleClass }
        (Json.obj [("mixin", Json.arr [Json.str "MA", Json.str "MB"])]) = .ok e2 ∧
      e2.toECClassData = sampleClass ∧
      e2.mixins.getD [] = [⟨SchemaItemKind.Mixin, "MA"⟩, ⟨SchemaItemKind.Mixin, "MB"⟩]) ∧
    EntityClass.fromJson { toECClassData := sampleClass }
        (Json.obj [("mixin", Json.str "Nope")]) = .error ⟨.InvalidECJson, ""⟩ ∧
    EntityClass.fromJson { toECClassData := sampleClass }
        (Json.obj [("mixin", Json.arr [Json.str "MA", Json.str "Nope"])])
      = .error ⟨.InvalidECJson, ""⟩ := by
  have h := (entity_fromJson_mixin_amended { toECClassData := sampleClass }
      (Json.obj [("mixin", Json.arr [Json.str "MA", Json.str "MB"])]) sampleSchema rfl rfl rfl).1
    [Json.str "MA", Json.str "MB"] [⟨SchemaItemKind.Mixin, "MA"⟩, ⟨SchemaItemKind.Mixin, "MB"⟩]
    rfl
    (List.Forall₂.cons ⟨"MA", rfl, rfl⟩ (List.Forall₂.cons ⟨"MB", rfl, rfl⟩ List.Forall₂.nil))
  have hsingle := (entity_fromJson_mixin_amended { toECClassData := sampleClass }
      (Json.obj [("mixin", Json.str "Nope")]) sampleSchema rfl rfl rfl).2.2.1
    "Nope" rfl (by decide) rfl
  have harr := (entity_fromJson_mixin_amended { toECClassData := sampleClass }
      (Json.obj [("mixin", Json.arr [Json.str "MA", Json.str "Nope"])]) sampleSchema rfl rfl rfl).2.2.2
    [Json.str "MA"] [⟨SchemaItemKind.Mixin, "MA"⟩] "Nope" []
    rfl (List.Forall₂.cons ⟨"MA", rfl, rfl⟩ List.Forall₂.nil) rfl
  obtain ⟨e2, h1, h2, h3⟩ := h
  exact ⟨⟨e2, h1, h2, by simpa using h3⟩, hsingle, harr⟩

/-- C7 counterexample: an unparseable `multiplicity` string need not fail —
the empty string is unparseable yet falsy, so the truthiness guard skips it
and `fromJson` succeeds with the multiplicity unchanged. -/
theorem constraint_fromJson_multiplicity_cex :
    RelationshipMultiplicity.fromString "" = none ∧
    sampleConstraint.fromJson (Json.obj [("multiplicity", Json.str "")]) = .ok sampleConstraint :=
  ⟨rfl, rfl⟩

/-- C7 (amended): a `multiplicity` string that parses sets the multiplicity
field to the parsed value; a nonempty unparseable string fails with
InvalidMultiplicity (the empty string, though unparseable, is skipped by the
truthiness guard and leaves the multiplicity unchanged). -/
theorem constraint_fromJson_multiplicity_amended (rc : RelationshipConstraint) (js : Json) :
    (∀ s mult, js.get "multiplicity" = some (.str s) →
      RelationshipMultiplicity.fromString s = some mult →
      ∀ rc2, rc.fromJson js = .ok rc2 → rc2.multiplicity = mult) ∧
    (∀ s, js.get "multiplicity" = some (.str s) → s ≠ "" →
      RelationshipMultiplicity.fromString s = none →
      rc.fromJson js = .error ⟨.InvalidMultiplicity, ""⟩) := by
  constructor
  · intro s mult hs hparse rc2 hok
    have hne : s ≠ "" := by
      intro he
      rw [he] at hparse
      simp [RelationshipMultiplicity.fromString] at hparse
    have htr : jsTruthy (some (Json.str s)) = true := by
      simpa [jsTruthy] using hne
    have hmult : (rc.fromJsonLabels js).fromJsonMultiplicity js
        = .ok { rc.fromJsonLabels js with multiplicity := mult } := by
      simp [RelationshipConstraint.fromJsonMultiplicity, htr, hs, Json.asString, hparse]
    simp only [RelationshipConstraint.fromJson] at hok
    rw [hmult] at hok
    simp only [exceptBindOk] at hok
    cases ha : ({ rc.fromJsonLabels js with multiplicity := mult }).fromJsonAbstract js with
    | error e =>
      rw [ha] at hok
      simp [exceptBindErr] at hok
    | ok rca =>
      rw [ha] at hok
      simp only [exceptBindOk] at hok
      have p2 := fromJsonAbstract_preserves _ _ _ ha
      have p3 := fromJsonConstraintClasses_preserves _ _ _ hok
      rw [p3.1, p2.1]
  · intro s hs hne hparse
    have htr : jsTruthy (some (Json.str s)) = true := by
      simpa [jsTruthy] using hne
    have hmult : (rc.fromJsonLabels js).fromJsonMultiplicity js
        = .error ⟨.InvalidMultiplicity, ""⟩ := by
      simp [RelationshipConstraint.fromJsonMultiplicity, htr, hs, Json.asString, hparse]
    simp only [RelationshipConstraint.fromJson]
    rw [hmult]
    simp [exceptBindErr]

/-- Witness for C7 at concrete inputs: `"(0..*)"` parses and is stored;
`"bogus"` is nonempty and unparseable and fails with InvalidMultiplicity. -/
theorem constraint_fromJson_multiplicity_amended_witness :
    ({ sampleConstraint with
        multiplicity := (⟨0, none⟩ : RelationshipMultiplicity) }).multiplicity
      = (⟨0, none⟩ : RelationshipMultiplicity) ∧
    sampleConstraint.fromJson (Json.obj [("multiplicity", Json.str "bogus")])
      = .error ⟨.InvalidMultiplicity, ""⟩ := by
  have h := constraint_fromJson_multiplicity_amended sampleConstraint
    (Json.obj [("multiplicity", Json.str "(0..*)")])
  have h2 := constraint_fromJson_multiplicity_amended sampleConstraint
    (Json.obj [("multiplicity", Json.str "bogus")])
  exact ⟨h.1 "(0..*)" ⟨0, none⟩ rfl rfl _ rfl, h2.2 "bogus" rfl (by decide) rfl⟩

/-- C9: on an input object with no `appliesTo` field (and whose base parsing
succeeds), `MixinClass.fromJson` succeeds and returns the class unchanged —
in particular `appliesTo` is untouched — while `CustomAttributeClass.fromJson`
fails with the missing-property InvalidECJson error. -/
theorem mixinClass_appliesTo_optional
    (m : MixinClass) (ca : CustomAttributeClass) (js : Json)
    (habs : js.get "appliesTo" = none)
    (hm : jsTruthy (js.get "modifier") = false)
    (hb : jsTruthy (js.get "baseClass") = false) :
    m.fromJson js = .ok m ∧
    ca.fromJson js = .error ⟨.InvalidECJson,
      "The Custom Attribute class " ++ ca.name ++ " is missing the required 'appliesTo' property."⟩ := by
  constructor
  · have hbase := ecFromJson_skip m.toECClassData js hm hb
    simp [MixinClass.fromJson, hbase, exceptBindOk, habs, jsTruthy]
  · have hbase := ecFromJson_skip ca.toECClassData js hm hb
    simp [CustomAttributeClass.fromJson, hbase, exceptBindOk, habs, jsTruthy]

/-- Witness for C9 at a concrete input: the empty JSON object has no
`appliesTo`; the mixin class passes through unchanged and the custom
attribute class fails. -/
theorem mixinClass_appliesTo_optional_witness :
    MixinClass.fromJson { toECClassData := sampleClass } (Json.obj [])
      = .ok { toECClassData := sampleClass } ∧
    CustomAttributeClass.fromJson { toECClassData := sampleClass } (Json.obj [])
      = .error ⟨.InvalidECJson,
          "The Custom Attribute class " ++ "Widget" ++ " is missing the required 'appliesTo' property."⟩ := by
  have h := mixinClass_appliesTo_optional { toECClassData := sampleClass }
    { toECClassData := sampleClass } (Json.obj []) rfl rfl rfl
  exact ⟨h.1, h.2⟩

/-- C10: `RelationshipConstraint.fromJson` copies `polymorphic` and
`roleLabel` only when truthy: a present `polymorphic: false` and a present
empty-string `roleLabel` leave the respective field unchanged, while
`polymorphic: true` and a nonempty `roleLabel` string are copied. -/
theorem constraint_fromJson_truthyOnly (rc : RelationshipConstraint) (js : Json) :
    (js.get "polymorphic" = some (.bool false) →
      ∀ rc2, rc.fromJson js = .ok rc2 → rc2.polymorphic = rc.polymorphic) ∧
    (js.get "roleLabel" = some (.str "") →
      ∀ rc2, rc.fromJson js = .ok rc2 → rc2.roleLabel = rc.roleLabel) ∧
    (js.get "polymorphic" = some (.bool true) →
      ∀ rc2, rc.fromJson js = .ok rc2 → rc2.polymorphic = true) ∧
    (∀ s, js.get "roleLabel" = some (.str s) → s ≠ "" →
      ∀ rc2, rc.fromJson js = .ok rc2 → rc2.roleLabel = some s) := by
  refine ⟨?_, ?_, ?_, ?_⟩
  · intro h rc2 hok
    rw [(constraintFromJson_decompose _ _ _ hok).1, fromJsonLabels_polymorphic_falsy _ _ h]
  · intro h rc2 hok
    rw [(constraintFromJson_decompose _ _ _ hok).2, fromJsonLabels_roleLabel_falsy _ _ h]
  · intro h rc2 hok
    rw [(constraintFromJson_decompose _ _ _ hok).1, fromJsonLabels_polymorphic_true _ _ h]
  · intro s h hne rc2 hok
    rw [(constraintFromJson_decompose _ _ _ hok).2, fromJsonLabels_roleLabel_set _ _ _ h hne]

/-- Witness for C10 at concrete inputs: `polymorphic: false` and
`roleLabel: ""` leave `sampleConstraint` unchanged, while truthy values are
copied. -/
theorem constraint_fromJson_truthyOnly_witness :
    sampleConstraint.fromJson
        (Json.obj [("polymorphic", Json.bool false), ("roleLabel", Json.str "")])
      = .ok sampleConstraint ∧
    ({ sampleConstraint with polymorphic := true, roleLabel := some "owner" }).polymorphic = true ∧
    ({ sampleConstraint with polymorphic := true, roleLabel := some "owner" }).roleLabel = some "owner" := by
  have h := constraint_fromJson_truthyOnly sampleConstraint
    (Json.obj [("polymorphic", Json.bool true), ("roleLabel", Json.str "owner")])
  refine ⟨rfl, ?_, ?_⟩
  · exact h.2.2.1 rfl _ rfl
  · exact h.2.2.2 "owner" rfl (by decide) _ rfl
